import Mathlib

/-!
Verification development for the KrishiVaani conversational agent module
(`backend/agent.py`): a shallow embedding of the session store, the
tool-calling agent state machine, the rollback controller and the
market-prices tool, together with theorems settling the specified
properties.

External collaborators (the language model, the HTTP transport, the tool
executor, clocks and randomness) are modelled as explicit oracle
parameters; the checkpoint store of the graph engine is modelled from the
specification text where its code is not part of this repository.
-/

namespace KrishiVaani

deriving instance DecidableEq for Except

/-- A tool-invocation request produced by the model: tool name, arguments
(keyed strings) and a call identifier. -/
structure ToolCall where
  name : String
  args : List (String × String)
  id : String
deriving DecidableEq

/-- A message in a conversation: system, human/user, assistant (with zero or
more requested tool invocations), or a tool-result message. -/
inductive Message where
  | system (content : String)
  | human (content : String)
  | ai (content : String) (tool_calls : List ToolCall)
  | toolResult (content : String) (tool_call_id : String)
deriving DecidableEq

/-- The agent state carried by the graph: message list plus auxiliary
context fields (`AgentState` in `agent.py`). -/
structure AgentState where
  messages : List Message
  language : String
  user_location : Option String
  current_crop : Option String
deriving DecidableEq

/-- One persisted turn record of the session store: query, response,
timestamp (`save_to_session` appends these). -/
structure TurnRecord where
  query : String
  response : String
  timestamp : String
deriving DecidableEq

/-- The process-wide `sessions` dict: session id to ordered turn records. -/
abbrev Sessions := List (String × List TurnRecord)

/-- The checkpointer state: thread id to checkpoint lineage, newest first
(index 0 is the current state, as in `get_state_history`). -/
abbrev Threads := List (String × List AgentState)

/-- The whole mutable state of the module: the session store and the
checkpointer owned by the compiled graph. -/
structure World where
  sessions : Sessions
  threads : Threads
deriving DecidableEq

/-- Update an association list at a key, appending if absent. -/
def setA {α : Type} (l : List (String × α)) (k : String) (v : α) : List (String × α) :=
  match l with
  | [] => [(k, v)]
  | (k', v') :: rest => if k' == k then (k, v) :: rest else (k', v') :: setA rest k v

/-- The agent system prompt of `agent.py` (`AGENT_SYSTEM_PROMPT`); the text
is abridged since no verified property depends on its wording, only on its
presence as the system message. -/
def AGENT_SYSTEM_PROMPT : String :=
  "You are KrishiVaani, an expert agricultural advisor for Indian farmers."

/-- The speech system prompt of `agent.py` (`SPEECH_SYSTEM_PROMPT`),
likewise abridged. -/
def SPEECH_SYSTEM_PROMPT : String :=
  "You are KrishiVaani, a helpful agricultural advisor for Indian farmers."

/-- The apology fallback answer used by `process_chat`. -/
def APOLOGY : String :=
  "I apologize, I could not process your request. Please try again."

/-- Oracle for the language model bound to the tool schema: given the
message list it either raises (an error string) or returns the assistant
reply content together with its requested tool invocations. -/
abbrev ModelOracle := List Message → Except String (String × List ToolCall)

/-- Oracle for executing one tool invocation; tools never raise (each tool
catches internally and returns an error string), so the result is total. -/
abbrev ToolExec := ToolCall → String

/-- `should_continue` of `create_agent`: route to the tools node exactly
when the last message is an assistant message with a non-empty
`tool_calls` list. -/
def should_continue (state : AgentState) : Bool :=
  match state.messages.getLast? with
  | some (.ai _ tcs) => !tcs.isEmpty
  | _ => false

/-- The prompt-prepending step of `call_model`: if the message list is
empty or its first element is not a system message, prepend the default
agent system prompt. -/
def prependSystem (msgs : List Message) : List Message :=
  match msgs with
  | .system _ :: _ => msgs
  | _ => .system AGENT_SYSTEM_PROMPT :: msgs

/-- `call_model` of `create_agent`: invoke the model on the (possibly
system-prompt-prepended) message list; the state update appends only the
model response to the stored messages, not the prepended prompt. -/
def call_model (model : ModelOracle) (state : AgentState) : Except String AgentState :=
  match model (prependSystem state.messages) with
  | .error e => .error e
  | .ok (c, tcs) => .ok { state with messages := state.messages ++ [.ai c tcs] }

/-- Modelled from the spec: the tool-execution node (`ToolNode(tools)` from
the graph library, whose code is not part of this repository). Per spec
section 4.2 it executes every tool invocation requested by the last
assistant message, in the order requested, and appends one tool-result
message per invocation. -/
def tool_node (exec : ToolExec) (state : AgentState) : AgentState :=
  match state.messages.getLast? with
  | some (.ai _ tcs) =>
    { state with messages :=
        state.messages ++ tcs.map (fun tc => Message.toolResult (exec tc) tc.id) }
  | _ => state

/-- The nodes of the agent state machine: the model-call node, the
tool-execution node, and the terminal state. -/
inductive Node where
  | agent
  | toolsNode
  | done
deriving DecidableEq

/-- Outcome of one run of the agent loop: a final state, a raised error,
or fuel exhaustion (the source loop is unbounded; `diverge` marks a run
that would still be looping). -/
inductive LoopOut where
  | ok (final : AgentState)
  | err (e : String)
  | diverge
deriving DecidableEq

/-- Result of running the agent loop: the outcome, the checkpoints written
during the run (chronological order), and the trace of visited nodes. -/
structure LoopResult where
  out : LoopOut
  cks : List AgentState
  trace : List Node
deriving DecidableEq

/-- The compiled graph loop: AGENT calls the model; if the response
requests tools, TOOLS executes them and control returns to AGENT,
otherwise the loop is DONE. A checkpoint is written after each node (spec
section 3). -/
def agentLoop (model : ModelOracle) (exec : ToolExec) : Nat → AgentState → LoopResult
  | 0, _ => ⟨.diverge, [], []⟩
  | fuel + 1, s =>
    match call_model model s with
    | .error e => ⟨.err e, [], [.agent]⟩
    | .ok s1 =>
      if should_continue s1 then
        let s2 := tool_node exec s1
        let r := agentLoop model exec fuel s2
        ⟨r.out, s1 :: s2 :: r.cks, .agent :: .toolsNode :: r.trace⟩
      else
        ⟨.ok s1, [s1], [.agent, .done]⟩

/-- The message list of the current checkpoint of a thread (empty for a
fresh thread). -/
def currentMessages (threads : Threads) (tid : String) : List Message :=
  match (threads.lookup tid).getD [] with
  | s :: _ => s.messages
  | [] => []

/-- Result of one `ainvoke` of the compiled graph. -/
structure InvokeResult where
  out : LoopOut
  threads : Threads
  trace : List Node
deriving DecidableEq

/-- Modelled from the spec: `agent_executor.ainvoke` under a thread id.
The graph engine (not part of this repository) loads the thread's current
checkpoint, appends the input messages to the stored ones (the
`add_messages` channel; spec section 8 session continuity), overwrites the
auxiliary fields, runs the loop and appends the written checkpoints to the
thread's lineage, newest first. -/
def ainvoke (model : ModelOracle) (exec : ToolExec) (fuel : Nat)
    (threads : Threads) (tid : String) (input : AgentState) : InvokeResult :=
  let lineage := (threads.lookup tid).getD []
  let merged : AgentState :=
    ⟨currentMessages threads tid ++ input.messages,
      input.language, input.user_location, input.current_crop⟩
  let r := agentLoop model exec fuel merged
  ⟨r.out, setA threads tid (r.cks.reverse ++ lineage), r.trace⟩

/-- Modelled from the spec: `agent_executor.update_state` makes the given
values the new current state by appending a fresh checkpoint; it does not
delete newer checkpoints from the underlying store (spec section 3). -/
def update_state (threads : Threads) (tid : String) (values : AgentState) : Threads :=
  setA threads tid (values :: (threads.lookup tid).getD [])

/-- `get_session_id`: a provided non-empty id is returned unchanged
(Python truthiness makes the empty string count as missing); otherwise a
fresh id is generated from the clock and random oracles. -/
def get_session_id (provided_id : Option String) (ts hex : String) : String :=
  match provided_id with
  | some s => if s != "" then s else "session_" ++ ts ++ "_" ++ hex
  | none => "session_" ++ ts ++ "_" ++ hex

/-- `save_to_session`: append one turn record to the session's list,
creating the session entry if absent. -/
def save_to_session (sess : Sessions) (session_id query response ts : String) : Sessions :=
  setA sess session_id (((sess.lookup session_id).getD []) ++ [⟨query, response, ts⟩])

/-- `msg.content` truthiness test for assistant messages: the content of
an assistant message when it is non-empty. -/
def aiContent? : Message → Option String
  | .ai c _ => if c != "" then some c else none
  | _ => none

/-- The answer-extraction loop of `process_chat`: the content of the last
assistant message with non-empty content, the apology fallback if none. -/
def extractAnswer (msgs : List Message) : String :=
  (msgs.reverse.findSome? aiContent?).getD APOLOGY

/-- The tool names requested by one message (empty unless an assistant
message). -/
def toolCallNames : Message → List String
  | .ai _ tcs => tcs.map ToolCall.name
  | _ => []

/-- All tool names requested across a message list, in request order. -/
def allToolNames (msgs : List Message) : List String :=
  (msgs.map toolCallNames).flatten

/-- The accumulator step of the `tools_used` collection loop of
`process_chat`: add a name if it is non-empty and not already collected. -/
def addName (acc : List String) (n : String) : List String :=
  if n != "" && !(acc.contains n) then acc ++ [n] else acc

/-- The `tools_used` collection loop of `process_chat`: fold over all
messages and all their tool calls, keeping first occurrences of non-empty
names. -/
def collectTools (msgs : List Message) : List String :=
  msgs.foldl (fun acc m => (toolCallNames m).foldl addName acc) []

/-- One entry of caller-supplied `chat_history` mapped to a message
(`role == "user"` and `role == "assistant"` entries; others dropped). -/
def histMessage (h : String × String) : Option Message :=
  if h.1 == "user" then some (.human h.2)
  else if h.1 == "assistant" then some (.ai h.2 [])
  else none

/-- The history-building loop of `process_chat`. -/
def buildHistory (chat_history : List (String × String)) : List Message :=
  chat_history.filterMap histMessage

/-- The result dictionary of `process_chat`. -/
structure ChatResult where
  answer : String
  session_id : String
  tools_used : List String
  has_context : Bool
deriving DecidableEq

/-- A default agent state (used where the source would raise on a missing
index, which the guarded call sites rule out). -/
def emptyState : AgentState := ⟨[], "", none, none⟩

/-- `process_chat`: resolve the session id, build the input messages from
caller history plus the query, run the agent loop under the session's
thread, extract answer and tools used and persist the turn. On a loop
error, attempt a best-effort single-step rollback (`get_state_history` /
`update_state`, any exception of the attempt — modelled by the `updExc`
oracle — being caught and logged) and re-raise the original error. `none`
models a run of the unbounded source loop that has not terminated. -/
def process_chat (model : ModelOracle) (exec : ToolExec) (fuel : Nat)
    (updExc : Option String) (ts hex : String) (w : World)
    (query : String) (session_id : Option String) (language : String)
    (location crop : Option String) (chat_history : List (String × String)) :
    Option (World × Except String ChatResult) :=
  let sid := get_session_id session_id ts hex
  let input : AgentState := ⟨buildHistory chat_history ++ [.human query], language, location, crop⟩
  let r := ainvoke model exec fuel w.threads sid input
  match r.out with
  | .diverge => none
  | .ok final =>
    let answer := extractAnswer final.messages
    let used := collectTools final.messages
    some (⟨save_to_session w.sessions sid query answer ts, r.threads⟩,
      .ok ⟨answer, sid, used, !used.isEmpty⟩)
  | .err e =>
    let lineage := (r.threads.lookup sid).getD []
    let threads2 :=
      match updExc with
      | some _ => r.threads
      | none =>
        if lineage.length > 1 then
          update_state r.threads sid (lineage[1]?.getD emptyState)
        else r.threads
    some (⟨w.sessions, threads2⟩, .error e)

/-- The result dictionary of `process_speech_chat`. -/
structure SpeechResult where
  answer : String
  session_id : String
  has_context : Bool
  tools_used : List String
deriving DecidableEq

/-- `process_speech_chat`: one direct model call on the fixed speech
system prompt plus the query; no tool loop and no checkpointing, only a
turn record on success. -/
def process_speech_chat (speechModel : List Message → Except String String)
    (ts hex : String) (w : World) (query : String) (session_id : Option String) :
    World × Except String SpeechResult :=
  let sid := get_session_id session_id ts hex
  match speechModel [.system SPEECH_SYSTEM_PROMPT, .human query] with
  | .error e => (w, .error e)
  | .ok content =>
    let answer := if content != "" then content
      else "I could not process your request. Please try again."
    (⟨save_to_session w.sessions sid query answer ts, w.threads⟩,
      .ok ⟨answer, sid, false, []⟩)

/-- The result dictionary of `rollback_conversation`. -/
structure RollbackResult where
  status : String
  message : String
  session_id : String
  remaining_history : Nat
deriving DecidableEq

/-- The Python slice `l[:-steps]` on the turn-record list (for `steps = 0`
it yields the empty list, as `[:-0]` does). -/
def pyTruncate (l : List TurnRecord) (steps : Nat) : List TurnRecord :=
  if steps = 0 then [] else l.take (l.length - steps)

/-- `rollback_conversation`: raise if the checkpoint lineage has at most
`steps` entries (the raise happens before any mutation); otherwise make
the checkpoint at index `steps` the current state and truncate the last
`steps` turn records when that many exist. -/
def rollback_conversation (w : World) (session_id : String) (steps : Nat) :
    World × Except String RollbackResult :=
  let state_history := (w.threads.lookup session_id).getD []
  if state_history.length ≤ steps then
    (w, .error ("Cannot rollback " ++ toString steps ++ " steps. Only " ++
      toString ((state_history.length : Int) - 1) ++ " previous states available."))
  else
    let target := state_history[steps]?.getD emptyState
    let threads2 := update_state w.threads session_id target
    let sessions2 :=
      match w.sessions.lookup session_id with
      | some recs =>
        if steps ≤ recs.length then setA w.sessions session_id (pyTruncate recs steps)
        else w.sessions
      | none => w.sessions
    (⟨sessions2, threads2⟩,
      .ok ⟨"success", "Rolled back " ++ toString steps ++ " step(s)", session_id,
        ((sessions2.lookup session_id).getD []).length⟩)

/-- Outcome of the HTTP call made by the market-prices tool: a response
with a status code and (serialized) JSON body, or a raised transport
exception. -/
inductive HttpOutcome where
  | response (status : Nat) (body : String)
  | exc (msg : String)
deriving DecidableEq

/-- `get_market_prices`: on HTTP 200 return the serialized response body;
on any other status return the could-not-fetch string; a raised transport
exception is caught and turned into the unavailable-service string. The
return type being `String` reflects that the tool never raises. -/
def get_market_prices (http : HttpOutcome) (commodity location : String) : String :=
  match http with
  | .response status body =>
    if status = 200 then body
    else "Could not fetch" ++ " market prices for " ++ commodity ++ " in " ++ location ++ "."
  | .exc e => "Market price service temporarily unavailable. Error: " ++ e

/-- Number of turn records of a session. -/
def turnCount (w : World) (sid : String) : Nat :=
  ((w.sessions.lookup sid).getD []).length

/-- Number of checkpoints in a session's lineage. -/
def ckCount (w : World) (sid : String) : Nat :=
  ((w.threads.lookup sid).getD []).length

/-- Specification-side definition, following the words of the claim about
`tools_used`: remove duplicates from a name list keeping the first
occurrence of each name (`seen` holds the names already emitted). -/
def dedupFirstAux (seen : List String) : List String → List String
  | [] => []
  | x :: xs =>
    if seen.contains x then dedupFirstAux seen xs
    else x :: dedupFirstAux (seen ++ [x]) xs

/-- Specification-side definition: the distinct elements of a list in
first-occurrence order. -/
def dedupFirst (l : List String) : List String := dedupFirstAux [] l

/-- Whether a message list starts with a system message. -/
def headIsSystem (msgs : List Message) : Bool :=
  match msgs.head? with
  | some (.system _) => true
  | _ => false

/-- The `answer` field of a successful `process_chat` outcome. -/
def chatAnswer? (r : Option (World × Except String ChatResult)) : Option String :=
  match r with
  | some (_, .ok res) => some res.answer
  | _ => none

/-- The `tools_used` field of a successful `process_chat` outcome. -/
def chatToolsUsed? (r : Option (World × Except String ChatResult)) : Option (List String) :=
  match r with
  | some (_, .ok res) => some res.tools_used
  | _ => none

/-- The `has_context` field of a successful `process_chat` outcome. -/
def chatHasContext? (r : Option (World × Except String ChatResult)) : Option Bool :=
  match r with
  | some (_, .ok res) => some res.has_context
  | _ => none

/-- The exception re-raised by a failing `process_chat` run. -/
def chatError? (r : Option (World × Except String ChatResult)) : Option String :=
  match r with
  | some (_, .error e) => some e
  | _ => none

/-- The world after a terminated `process_chat` run. -/
def chatWorld? (r : Option (World × Except String ChatResult)) : Option World :=
  r.map Prod.fst

/-- The result dictionary of a successful `process_speech_chat` call. -/
def speechResult? (r : World × Except String SpeechResult) : Option SpeechResult :=
  match r.2 with
  | .ok s => some s
  | _ => none

/-- Concrete tool executor used in witness scenarios. -/
def exec0 : ToolExec := fun _ => "TOOLRESULT"

/-- Concrete model oracle that always answers without requesting tools. -/
def constOracle : ModelOracle := fun _ => .ok ("fine", [])

/-- Concrete model oracle that always raises. -/
def errOracle : ModelOracle := fun _ => .error "boom"

/-- A concrete weather tool invocation request. -/
def tcWeather : ToolCall := ⟨"get_weather_advisory", [("location", "Delhi")], "c1"⟩

/-- Concrete model oracle that requests the weather tool on its first call
(the prompt-prepended first call sees two messages) and answers on the
next. -/
def toolThenAnswerOracle : ModelOracle := fun msgs =>
  if msgs.length ≤ 2 then .ok ("", [tcWeather]) else .ok ("sunny", [])

/-- Concrete model oracle that requests the weather tool on its first call
and raises on the next. -/
def toolThenErrOracle : ModelOracle := fun msgs =>
  if msgs.length ≤ 2 then .ok ("", [tcWeather]) else .error "boom"

/-- The empty world (fresh process). -/
def w0 : World := ⟨[], []⟩

/-- Agent state after the model requested the weather tool on query `q1`. -/
def stA : AgentState := ⟨[.human "q1", .ai "" [tcWeather]], "en", none, none⟩

/-- Agent state after the weather tool result was appended. -/
def stB : AgentState :=
  ⟨[.human "q1", .ai "" [tcWeather], .toolResult "TOOLRESULT" "c1"], "en", none, none⟩

/-- Agent state after the model answered `sunny` following the tool round. -/
def stC : AgentState :=
  ⟨[.human "q1", .ai "" [tcWeather], .toolResult "TOOLRESULT" "c1", .ai "sunny" []],
    "en", none, none⟩

/-- Agent state after a second, tool-free turn `q2` on top of `stC`. -/
def stD : AgentState := ⟨stC.messages ++ [.human "q2", .ai "fine" []], "en", none, none⟩

/-- World after one tool-using chat turn on session `s1`. -/
def Wtool : World := ⟨[("s1", [⟨"q1", "sunny", "t"⟩])], [("s1", [stC, stB, stA])]⟩

/-- World after a further tool-free chat turn on session `s1`. -/
def Wtool2 : World :=
  ⟨[("s1", [⟨"q1", "sunny", "t"⟩, ⟨"q2", "fine", "t2"⟩])], [("s1", [stD, stC, stB, stA])]⟩

/-- Agent state after one tool-free turn `hello`. -/
def stE : AgentState := ⟨[.human "hello", .ai "fine" []], "en", none, none⟩

/-- Agent state after a second tool-free turn `bye`. -/
def stF : AgentState :=
  ⟨[.human "hello", .ai "fine" [], .human "bye", .ai "fine" []], "en", none, none⟩

/-- World after one tool-free chat turn on session `s1`. -/
def Wone : World := ⟨[("s1", [⟨"hello", "fine", "t"⟩])], [("s1", [stE])]⟩

/-- World after two tool-free chat turns on session `s1`. -/
def Wtwo : World :=
  ⟨[("s1", [⟨"hello", "fine", "t"⟩, ⟨"bye", "fine", "t2"⟩])], [("s1", [stF, stE])]⟩

/-- World reached from the empty world by a chat turn whose second model
call raises: two checkpoints were written by the aborted turn, plus one by
the automatic single-step rollback attempt; no turn record was saved. -/
def Werr : World := ⟨[], [("s1", [stA, stB, stA])]⟩

/-- World after a successful one-step rollback on `Wtwo`: the last turn
record is truncated and a fresh checkpoint of the older state is appended
to the lineage. -/
def WtwoRb : World := ⟨[("s1", [⟨"hello", "fine", "t"⟩])], [("s1", [stE, stF, stE])]⟩

/-- Concrete speech-model oracle used in witness scenarios. -/
def speechOracle : List Message → Except String String := fun _ => .ok "namaste"

/-- A first concrete tool invocation request (witness scenarios). -/
def tcA : ToolCall := ⟨"get_weather_advisory", [("location", "Pune")], "a1"⟩

/-- A second concrete tool invocation request (witness scenarios). -/
def tcB : ToolCall := ⟨"get_market_prices", [("commodity", "wheat")], "b1"⟩

/-- A state whose last assistant message requests the two tools
`tcA` and `tcB`. -/
def stAB : AgentState := ⟨[.human "q", .ai "" [tcA, tcB]], "en", none, none⟩

/-- Looking up the key just set yields the set value. -/
theorem lookup_setA_self {α : Type} (l : List (String × α)) (k : String) (v : α) :
    (setA l k v).lookup k = some v := by
  induction l with
  | nil => simp [setA, List.lookup]
  | cons p rest ih =>
    obtain ⟨k', v'⟩ := p
    by_cases h : k' = k
    · simp [setA, h, List.lookup]
    · simp only [setA]
      rw [if_neg (by simpa using h)]
      have hkk : (k == k') = false := by simp [Ne.symm h]
      simpa [List.lookup, hkk] using ih

/-- A run of the agent loop that produces a final state wrote at least one
checkpoint. -/
theorem agentLoop_ok_cks (model : ModelOracle) (exec : ToolExec)
    (fuel : Nat) (s f : AgentState)
    (h : (agentLoop model exec fuel s).out = .ok f) :
    (agentLoop model exec fuel s).cks ≠ [] := by
  cases fuel with
  | zero => simp [agentLoop] at h
  | succ n =>
    simp only [agentLoop] at h ⊢
    cases hc : call_model model s with
    | error e => rw [hc] at h; exact LoopOut.noConfusion h
    | ok s1 => by_cases hsc : should_continue s1 <;> simp [hsc]

/-- Every run of the agent loop with fuel left enters the AGENT node
first. -/
theorem agentLoop_trace_head (model : ModelOracle) (exec : ToolExec)
    (fuel : Nat) (s : AgentState) :
    (agentLoop model exec (fuel + 1) s).trace.head? = some .agent := by
  simp only [agentLoop]
  cases call_model model s with
  | error e => rfl
  | ok s1 => by_cases h : should_continue s1 <;> simp [h]

/-- The nested `tools_used` fold equals a flat fold over all requested
names. -/
theorem collectTools_foldl (msgs : List Message) :
    ∀ acc, msgs.foldl (fun acc m => (toolCallNames m).foldl addName acc) acc
      = (allToolNames msgs).foldl addName acc := by
  induction msgs with
  | nil => intro acc; rfl
  | cons m ms ih =>
    intro acc
    simp only [List.foldl_cons, allToolNames, List.map_cons, List.flatten_cons,
      List.foldl_append]
    exact ih _

/-- The `tools_used` fold of `process_chat`, flattened. -/
theorem collectTools_eq (msgs : List Message) :
    collectTools msgs = (allToolNames msgs).foldl addName [] :=
  collectTools_foldl msgs []

/-- The flat `tools_used` fold is the keep-first deduplication of the
non-empty requested names. -/
theorem foldl_addName_eq : ∀ (l acc : List String),
    l.foldl addName acc = acc ++ dedupFirstAux acc (l.filter (fun n => n != "")) := by
  intro l
  induction l with
  | nil => intro acc; simp [dedupFirstAux]
  | cons x xs ih =>
    intro acc
    have hcons : ∀ (seen : List String) (ys : List String),
        dedupFirstAux seen (x :: ys) =
          if seen.contains x then dedupFirstAux seen ys
          else x :: dedupFirstAux (seen ++ [x]) ys := fun _ _ => rfl
    simp only [List.foldl_cons]
    cases hx : (x != "") with
    | true =>
      cases hc : acc.contains x with
      | true =>
        have ha : addName acc x = acc := by unfold addName; rw [hc]; simp
        rw [ha, ih, List.filter_cons, if_pos hx, hcons, hc]
        simp
      | false =>
        have ha : addName acc x = acc ++ [x] := by unfold addName; rw [hc, hx]; simp
        rw [ha, ih, List.filter_cons, if_pos hx, hcons, hc]
        simp [List.append_assoc]
    | false =>
      have ha : addName acc x = acc := by unfold addName; rw [hx]; simp
      rw [ha, ih, List.filter_cons, if_neg (by simp [hx])]

/-- `collectTools` refines the keep-first deduplication of the non-empty
requested tool names. -/
theorem collectTools_dedup (msgs : List Message) :
    collectTools msgs = dedupFirst ((allToolNames msgs).filter (fun n => n != "")) := by
  rw [collectTools_eq, foldl_addName_eq]
  rfl

/-- Membership in the keep-first deduplication. -/
theorem mem_dedupFirstAux (a : String) : ∀ (l seen : List String),
    a ∈ dedupFirstAux seen l ↔ a ∈ l ∧ a ∉ seen := by
  intro l
  induction l with
  | nil => intro seen; simp [dedupFirstAux]
  | cons x xs ih =>
    intro seen
    have hcons : dedupFirstAux seen (x :: xs) =
        if seen.contains x then dedupFirstAux seen xs
        else x :: dedupFirstAux (seen ++ [x]) xs := rfl
    by_cases hx : x ∈ seen
    · rw [hcons, if_pos (List.elem_iff.mpr hx), ih]
      constructor
      · rintro ⟨h1, h2⟩; exact ⟨List.mem_cons_of_mem _ h1, h2⟩
      · rintro ⟨h1, h2⟩
        rcases List.mem_cons.mp h1 with rfl | h1
        · exact absurd hx h2
        · exact ⟨h1, h2⟩
    · rw [hcons, if_neg (fun hc => hx (List.elem_iff.mp hc)), List.mem_cons, ih]
      constructor
      · rintro (rfl | ⟨h1, h2⟩)
        · exact ⟨List.mem_cons_self _ _, hx⟩
        · rw [List.mem_append] at h2
          push_neg at h2
          exact ⟨List.mem_cons_of_mem _ h1, h2.1⟩
      · rintro ⟨h1, h2⟩
        rcases List.mem_cons.mp h1 with rfl | h1
        · exact Or.inl rfl
        · by_cases hax : a = x
          · exact Or.inl hax
          · exact Or.inr ⟨h1, by simp [List.mem_append, h2, hax]⟩

/-- The keep-first deduplication has no duplicates. -/
theorem nodup_dedupFirstAux : ∀ (l seen : List String), (dedupFirstAux seen l).Nodup := by
  intro l
  induction l with
  | nil => intro seen; simp [dedupFirstAux]
  | cons x xs ih =>
    intro seen
    have hcons : dedupFirstAux seen (x :: xs) =
        if seen.contains x then dedupFirstAux seen xs
        else x :: dedupFirstAux (seen ++ [x]) xs := rfl
    by_cases hx : seen.contains x = true
    · rw [hcons, if_pos hx]; exact ih seen
    · rw [hcons, if_neg hx]
      refine List.nodup_cons.mpr ⟨fun hmem => ?_, ih _⟩
      have := ((mem_dedupFirstAux x xs (seen ++ [x])).mp hmem).2
      simp [List.mem_append] at this

/-- A message list with no assistant content yields the apology answer. -/
theorem extractAnswer_apology (msgs : List Message)
    (h : ∀ m ∈ msgs, aiContent? m = none) : extractAnswer msgs = APOLOGY := by
  unfold extractAnswer
  rw [List.findSome?_eq_none_iff.mpr (fun m hm => h m (List.mem_reverse.mp hm))]
  rfl

/-- The extracted answer is the content of the last assistant message with
non-empty content. -/
theorem extractAnswer_last (pre post : List Message) (c : String) (tcs : List ToolCall)
    (hc : (c != "") = true) (h : ∀ m ∈ post, aiContent? m = none) :
    extractAnswer (pre ++ .ai c tcs :: post) = c := by
  unfold extractAnswer
  rw [List.reverse_append, List.reverse_cons, List.findSome?_append, List.findSome?_append]
  rw [List.findSome?_eq_none_iff.mpr (fun m hm => h m (List.mem_reverse.mp hm))]
  simp [aiContent?, hc]

/-- Requested tool names distribute over message-list append. -/
theorem allToolNames_append (l1 l2 : List Message) :
    allToolNames (l1 ++ l2) = allToolNames l1 ++ allToolNames l2 := by
  simp [allToolNames]

/-- Messages rebuilt from caller-supplied chat history carry no tool
invocations. -/
theorem allToolNames_buildHistory (h : List (String × String)) :
    allToolNames (buildHistory h) = [] := by
  induction h with
  | nil => rfl
  | cons p rest ih =>
    simp only [buildHistory, List.filterMap_cons]
    cases hp : histMessage p with
    | none => simpa [buildHistory] using ih
    | some m =>
      have hm : toolCallNames m = [] := by
        unfold histMessage at hp
        split at hp
        · cases hp; rfl
        · split at hp
          · cases hp; rfl
          · cases hp
      have hrest : allToolNames (List.filterMap histMessage rest) = [] := ih
      show toolCallNames m ++ allToolNames (List.filterMap histMessage rest) = []
      rw [hm, hrest]
      rfl

/-- If no tool names are requested anywhere, the collected `tools_used`
list is empty. -/
theorem collectTools_eq_nil (msgs : List Message) (h : allToolNames msgs = []) :
    collectTools msgs = [] := by
  rw [collectTools_eq, h]
  rfl

/-- C1: for every session and step count, rollback with steps at least the
session's checkpoint count fails with the insufficient-history error, and
in that case neither the checkpoint lineage nor the visible turn-record
history is changed (the raise precedes every mutation). -/
theorem rollback_insufficient_history_fails (w : World) (sid : String) (steps : Nat)
    (h : ckCount w sid ≤ steps) :
    (rollback_conversation w sid steps).1 = w ∧
      (rollback_conversation w sid steps).2.isOk = false := by
  have h' : ((w.threads.lookup sid).getD []).length ≤ steps := h
  unfold rollback_conversation
  rw [if_pos h']
  exact ⟨rfl, rfl⟩

/-- Witness for C1: a session with exactly one checkpoint rejects a
one-step rollback and is left unchanged. -/
theorem rollback_insufficient_history_fails_witness :
    (rollback_conversation Wone "s1" 1).1 = Wone ∧
      (rollback_conversation Wone "s1" 1).2.isOk = false :=
  rollback_insufficient_history_fails Wone "s1" 1 (by decide)

/-- C9: the market-prices tool never raises: any non-200 response yields a
result string prefixed with the could-not-fetch text, and a raised
transport exception is caught and turned into a human-readable error
string. -/
theorem market_prices_never_raises (commodity location : String) :
    (∀ (status : Nat) (body : String), status ≠ 200 →
      ("Could not fetch").data <+:
        (get_market_prices (.response status body) commodity location).data) ∧
      (∀ e, get_market_prices (.exc e) commodity location =
        "Market price service temporarily unavailable. Error: " ++ e) := by
  constructor
  · intro status body h
    simp only [get_market_prices, if_neg h]
    exact List.prefix_append _ _
  · intro e
    rfl

/-- Witness for C9: an HTTP 500 yields the could-not-fetch prefix and a
transport exception yields the error string. -/
theorem market_prices_never_raises_witness :
    ("Could not fetch").data <+:
        (get_market_prices (.response 500 "ignored") "wheat" "Delhi").data ∧
      get_market_prices (.exc "timeout") "wheat" "Delhi" =
        "Market price service temporarily unavailable. Error: " ++ "timeout" :=
  ⟨(market_prices_never_raises "wheat" "Delhi").1 500 "ignored" (by decide),
   (market_prices_never_raises "wheat" "Delhi").2 "timeout"⟩

/-- C10: a non-empty provided session id is returned unchanged, while an
empty or absent one is treated as missing and a freshly generated
session_<timestamp>_<hex> id is returned instead. -/
theorem session_id_passthrough_or_fresh (ts hex : String) :
    (∀ s : String, s ≠ "" → get_session_id (some s) ts hex = s) ∧
      get_session_id (some "") ts hex = "session_" ++ ts ++ "_" ++ hex ∧
      get_session_id none ts hex = "session_" ++ ts ++ "_" ++ hex := by
  refine ⟨fun s hs => ?_, rfl, rfl⟩
  simp [get_session_id, hs]

/-- Witness for C10 at a concrete non-empty and the empty provided id. -/
theorem session_id_passthrough_or_fresh_witness :
    get_session_id (some "abc") "20250101" "beef" = "abc" ∧
      get_session_id (some "") "20250101" "beef" =
        "session_" ++ "20250101" ++ "_" ++ "beef" :=
  ⟨(session_id_passthrough_or_fresh "20250101" "beef").1 "abc" (by decide),
   (session_id_passthrough_or_fresh "20250101" "beef").2.1⟩

/-- C6: the message list handed to the model always starts with a system
message — when the stored list is empty or starts otherwise, the default
agent prompt is prepended — and the state persisted after the model call
appends only the model response, so the prepended prompt never enters the
stored state. -/
theorem system_prompt_prepended_not_persisted :
    (∀ msgs : List Message, headIsSystem (prependSystem msgs) = true) ∧
      (∀ msgs : List Message, headIsSystem msgs = false →
        prependSystem msgs = .system AGENT_SYSTEM_PROMPT :: msgs) ∧
      (∀ (model : ModelOracle) (state : AgentState) (c : String) (tcs : List ToolCall),
        model (prependSystem state.messages) = .ok (c, tcs) →
        call_model model state = .ok { state with messages := state.messages ++ [.ai c tcs] }) ∧
      (∀ (model : ModelOracle) (state s2 : AgentState),
        headIsSystem state.messages = false → call_model model state = .ok s2 →
        headIsSystem s2.messages = false) := by
  refine ⟨fun msgs => ?_, fun msgs h => ?_, fun model state c tcs h => ?_,
    fun model state s2 h hcall => ?_⟩
  · cases msgs with
    | nil => rfl
    | cons m rest => cases m <;> rfl
  · cases msgs with
    | nil => rfl
    | cons m rest => cases m <;> first | rfl | exact absurd h (by simp [headIsSystem])
  · unfold call_model
    rw [h]
  · unfold call_model at hcall
    cases hm : model (prependSystem state.messages) with
    | error e => rw [hm] at hcall; exact Except.noConfusion hcall
    | ok p =>
      rw [hm] at hcall
      obtain ⟨c, tcs⟩ := p
      cases hcall
      cases hms : state.messages with
      | nil => rfl
      | cons m rest =>
        rw [hms] at h
        cases m <;> first | rfl | simp [headIsSystem] at h

/-- Witness for C6 on a one-message history without a system message. -/
theorem system_prompt_prepended_not_persisted_witness :
    headIsSystem (prependSystem [Message.human "hi"]) = true ∧
      prependSystem [Message.human "hi"] =
        .system AGENT_SYSTEM_PROMPT :: [Message.human "hi"] ∧
      call_model constOracle ⟨[.human "hi"], "en", none, none⟩ =
        .ok ⟨[.human "hi", .ai "fine" []], "en", none, none⟩ ∧
      headIsSystem [Message.human "hi", Message.ai "fine" []] = false := by
  refine ⟨system_prompt_prepended_not_persisted.1 [Message.human "hi"],
    system_prompt_prepended_not_persisted.2.1 [Message.human "hi"] rfl,
    system_prompt_prepended_not_persisted.2.2.1 constOracle
      ⟨[.human "hi"], "en", none, none⟩ "fine" [] rfl,
    system_prompt_prepended_not_persisted.2.2.2 constOracle
      ⟨[.human "hi"], "en", none, none⟩ ⟨[.human "hi", .ai "fine" []], "en", none, none⟩
      rfl ?_⟩
  exact system_prompt_prepended_not_persisted.2.2.1 constOracle
    ⟨[.human "hi"], "en", none, none⟩ "fine" [] rfl

/-- C8: process_speech_chat performs one direct model call on the fixed
speech prompt; whenever it returns a result dictionary, that dictionary
has tools_used = [] and has_context = false regardless of the model
output, and the tool-calling state machine's checkpoint store is never
touched. -/
theorem speech_chat_fixed_shape (speechModel : List Message → Except String String)
    (ts hex : String) (w : World) (query : String) (sidOpt : Option String)
    (content : String)
    (h : speechModel [.system SPEECH_SYSTEM_PROMPT, .human query] = .ok content) :
    (speechResult? (process_speech_chat speechModel ts hex w query sidOpt)).map
        SpeechResult.tools_used = some [] ∧
      (speechResult? (process_speech_chat speechModel ts hex w query sidOpt)).map
        SpeechResult.has_context = some false ∧
      (process_speech_chat speechModel ts hex w query sidOpt).1.threads = w.threads := by
  unfold process_speech_chat
  rw [h]
  exact ⟨rfl, rfl, rfl⟩

/-- Witness for C8 on a concrete speech oracle and query. -/
theorem speech_chat_fixed_shape_witness :
    (speechResult? (process_speech_chat speechOracle "t" "h" w0
        "What is the weather today?" none)).map SpeechResult.tools_used = some [] ∧
      (speechResult? (process_speech_chat speechOracle "t" "h" w0
        "What is the weather today?" none)).map SpeechResult.has_context = some false ∧
      (process_speech_chat speechOracle "t" "h" w0
        "What is the weather today?" none).1.threads = w0.threads :=
  speech_chat_fixed_shape speechOracle "t" "h" w0 "What is the weather today?" none
    "namaste" rfl

/-- C4: for every assistant message requesting n tool invocations, the
TOOLS node appends exactly one tool-result message per invocation, in
request order, and the loop then transitions back to AGENT. -/
theorem tools_node_executes_all (exec : ToolExec) (state : AgentState)
    (c : String) (tcs : List ToolCall)
    (h : state.messages.getLast? = some (.ai c tcs)) :
    (tool_node exec state).messages =
        state.messages ++ tcs.map (fun tc => Message.toolResult (exec tc) tc.id) ∧
      (tool_node exec state).messages.length = state.messages.length + tcs.length ∧
      (∀ (model : ModelOracle) (fuel : Nat) (s s1 : AgentState),
        call_model model s = .ok s1 → should_continue s1 = true →
        (agentLoop model exec (fuel + 1 + 1) s).trace =
          .agent :: .toolsNode ::
            (agentLoop model exec (fuel + 1) (tool_node exec s1)).trace ∧
        (agentLoop model exec (fuel + 1) (tool_node exec s1)).trace.head? =
          some .agent) := by
  have h1 : (tool_node exec state).messages =
      state.messages ++ tcs.map (fun tc => Message.toolResult (exec tc) tc.id) := by
    unfold tool_node
    rw [h]
  refine ⟨h1, ?_, ?_⟩
  · rw [h1, List.length_append, List.length_map]
  · intro model fuel s s1 hc hs
    constructor
    · simp only [agentLoop]
      rw [hc]
      simp [hs]
    · exact agentLoop_trace_head model exec fuel (tool_node exec s1)

/-- Witness for C4: a response requesting the two tools tcA and tcB yields
exactly two tool-result messages in request order, and after a tool round
the loop re-enters AGENT. -/
theorem tools_node_executes_all_witness :
    (tool_node exec0 stAB).messages = stAB.messages ++
        [Message.toolResult "TOOLRESULT" "a1", Message.toolResult "TOOLRESULT" "b1"] ∧
      (tool_node exec0 stAB).messages.length = stAB.messages.length + 2 ∧
      (agentLoop toolThenAnswerOracle exec0 3 ⟨[.human "q1"], "en", none, none⟩).trace =
        .agent :: .toolsNode ::
          (agentLoop toolThenAnswerOracle exec0 2 (tool_node exec0 stA)).trace := by
  have t := tools_node_executes_all exec0 stAB "" [tcA, tcB] rfl
  exact ⟨t.1, t.2.1,
    (t.2.2 toolThenAnswerOracle 1 ⟨[.human "q1"], "en", none, none⟩ stA rfl (by decide)).1⟩

/-- C5: when the agent loop raises, process_chat re-raises the original
exception to the caller and returns no result dictionary, no turn record
is saved, and it attempts a single-step rollback of the session's thread
state first: when the attempt itself does not raise and more than one
checkpoint is available, the checkpoint at index 1 is made current via
update_state; with at most one checkpoint the thread state is left as the
failed run wrote it; and when the attempt raises (the updExc oracle), the
failure is swallowed — the threads are untouched and the original
exception is still the one surfaced. -/
theorem chat_error_reraised (model : ModelOracle) (exec : ToolExec) (fuel : Nat)
    (updExc : Option String) (ts hex : String) (w : World) (query : String)
    (sidOpt : Option String) (language : String) (location crop : Option String)
    (hist : List (String × String)) (e : String)
    (h : (ainvoke model exec fuel w.threads (get_session_id sidOpt ts hex)
      ⟨buildHistory hist ++ [.human query], language, location, crop⟩).out = .err e) :
    chatError? (process_chat model exec fuel updExc ts hex w query sidOpt language
        location crop hist) = some e ∧
      chatAnswer? (process_chat model exec fuel updExc ts hex w query sidOpt language
        location crop hist) = none ∧
      (chatWorld? (process_chat model exec fuel updExc ts hex w query sidOpt language
        location crop hist)).map World.sessions = some w.sessions ∧
      (updExc = none →
        1 < ((((ainvoke model exec fuel w.threads (get_session_id sidOpt ts hex)
            ⟨buildHistory hist ++ [.human query], language, location, crop⟩).threads.lookup
            (get_session_id sidOpt ts hex)).getD []).length) →
        (chatWorld? (process_chat model exec fuel updExc ts hex w query sidOpt language
          location crop hist)).map World.threads =
          some (update_state
            (ainvoke model exec fuel w.threads (get_session_id sidOpt ts hex)
              ⟨buildHistory hist ++ [.human query], language, location, crop⟩).threads
            (get_session_id sidOpt ts hex)
            ((((ainvoke model exec fuel w.threads (get_session_id sidOpt ts hex)
              ⟨buildHistory hist ++ [.human query], language, location,
                crop⟩).threads.lookup (get_session_id sidOpt ts hex)).getD
              [])[1]?.getD emptyState))) ∧
      (updExc = none →
        ¬ 1 < ((((ainvoke model exec fuel w.threads (get_session_id sidOpt ts hex)
            ⟨buildHistory hist ++ [.human query], language, location, crop⟩).threads.lookup
            (get_session_id sidOpt ts hex)).getD []).length) →
        (chatWorld? (process_chat model exec fuel updExc ts hex w query sidOpt language
          location crop hist)).map World.threads =
          some (ainvoke model exec fuel w.threads (get_session_id sidOpt ts hex)
            ⟨buildHistory hist ++ [.human query], language, location, crop⟩).threads) ∧
      (∀ f : String, updExc = some f →
        (chatWorld? (process_chat model exec fuel updExc ts hex w query sidOpt language
          location crop hist)).map World.threads =
          some (ainvoke model exec fuel w.threads (get_session_id sidOpt ts hex)
            ⟨buildHistory hist ++ [.human query], language, location, crop⟩).threads) := by
  simp only [process_chat]
  rw [h]
  refine ⟨rfl, rfl, rfl, ?_, ?_, ?_⟩
  · intro hu hl
    subst hu
    rw [if_pos hl]
    rfl
  · intro hu hl
    subst hu
    rw [if_neg hl]
    rfl
  · intro f hu
    subst hu
    rfl

/-- Witness for C5: a run whose second model call raises leaves two
checkpoints; the automatic rollback attempt makes the older one current
(update_state on the checkpoint at index 1) and the original error
surfaces; and with a raising rollback attempt the threads written by the
failed run are untouched while the original error still surfaces. -/
theorem chat_error_reraised_witness :
    chatError? (process_chat toolThenErrOracle exec0 5 none "t" "h" w0 "q1" (some "s1")
        "en" none none []) = some "boom" ∧
      chatAnswer? (process_chat toolThenErrOracle exec0 5 none "t" "h" w0 "q1" (some "s1")
        "en" none none []) = none ∧
      (chatWorld? (process_chat toolThenErrOracle exec0 5 none "t" "h" w0 "q1" (some "s1")
        "en" none none [])).map World.sessions = some w0.sessions ∧
      (chatWorld? (process_chat toolThenErrOracle exec0 5 none "t" "h" w0 "q1" (some "s1")
        "en" none none [])).map World.threads =
        some (update_state
          (ainvoke toolThenErrOracle exec0 5 w0.threads (get_session_id (some "s1") "t" "h")
            ⟨buildHistory [] ++ [.human "q1"], "en", none, none⟩).threads
          (get_session_id (some "s1") "t" "h")
          ((((ainvoke toolThenErrOracle exec0 5 w0.threads
            (get_session_id (some "s1") "t" "h")
            ⟨buildHistory [] ++ [.human "q1"], "en", none,
              none⟩).threads.lookup (get_session_id (some "s1") "t" "h")).getD
            [])[1]?.getD emptyState)) ∧
      chatError? (process_chat errOracle exec0 3 (some "rollback failure") "t" "h" w0 "q"
        (some "s1") "en" none none []) = some "boom" ∧
      (chatWorld? (process_chat errOracle exec0 3 (some "rollback failure") "t" "h" w0 "q"
        (some "s1") "en" none none [])).map World.threads =
        some (ainvoke errOracle exec0 3 w0.threads (get_session_id (some "s1") "t" "h")
          ⟨buildHistory [] ++ [.human "q"], "en", none, none⟩).threads := by
  have t1 := chat_error_reraised toolThenErrOracle exec0 5 none "t" "h" w0 "q1"
    (some "s1") "en" none none [] "boom" rfl
  have t2 := chat_error_reraised errOracle exec0 3 (some "rollback failure") "t" "h" w0
    "q" (some "s1") "en" none none [] "boom" rfl
  exact ⟨t1.1, t1.2.1, t1.2.2.1, t1.2.2.2.1 rfl (by decide), t2.1,
    t2.2.2.2.2.2 "rollback failure" rfl⟩

/-- C3 (amended): a chat turn whose model response contains no
tool-invocation requests makes a single AGENT transition straight to DONE
(the TOOLS node is never entered), and — provided the session's
accumulated message state carries no tool invocations from earlier turns —
the returned tools_used list is empty. -/
theorem no_tool_response_single_transition (model : ModelOracle) (exec : ToolExec)
    (fuel : Nat) (updExc : Option String) (ts hex : String) (w : World) (query : String)
    (sidOpt : Option String) (language : String) (location crop : Option String)
    (hist : List (String × String)) (c : String)
    (h : model (prependSystem (currentMessages w.threads (get_session_id sidOpt ts hex) ++
      (buildHistory hist ++ [.human query]))) = .ok (c, []))
    (hclean : allToolNames (currentMessages w.threads (get_session_id sidOpt ts hex)) = []) :
    (ainvoke model exec (fuel + 1) w.threads (get_session_id sidOpt ts hex)
        ⟨buildHistory hist ++ [.human query], language, location, crop⟩).trace =
      [.agent, .done] ∧
      chatToolsUsed? (process_chat model exec (fuel + 1) updExc ts hex w query sidOpt
        language location crop hist) = some [] ∧
      chatHasContext? (process_chat model exec (fuel + 1) updExc ts hex w query sidOpt
        language location crop hist) = some false := by
  have hcall : call_model model
      ⟨currentMessages w.threads (get_session_id sidOpt ts hex) ++
        (buildHistory hist ++ [.human query]), language, location, crop⟩ =
      .ok ⟨currentMessages w.threads (get_session_id sidOpt ts hex) ++
        (buildHistory hist ++ [.human query]) ++ [.ai c []], language, location, crop⟩ := by
    unfold call_model
    dsimp only
    rw [h]
  have hsc : should_continue
      ⟨currentMessages w.threads (get_session_id sidOpt ts hex) ++
        (buildHistory hist ++ [.human query]) ++ [.ai c []], language, location, crop⟩
      = false := by
    unfold should_continue
    dsimp only
    rw [List.getLast?_concat]
    rfl
  have hloop : agentLoop model exec (fuel + 1)
      ⟨currentMessages w.threads (get_session_id sidOpt ts hex) ++
        (buildHistory hist ++ [.human query]), language, location, crop⟩ =
      ⟨.ok ⟨currentMessages w.threads (get_session_id sidOpt ts hex) ++
          (buildHistory hist ++ [.human query]) ++ [.ai c []], language, location, crop⟩,
        [⟨currentMessages w.threads (get_session_id sidOpt ts hex) ++
          (buildHistory hist ++ [.human query]) ++ [.ai c []], language, location, crop⟩],
        [.agent, .done]⟩ := by
    simp only [agentLoop]
    rw [hcall]
    dsimp only
    rw [hsc, if_neg (show ¬(false = true) by simp)]
  have hnames : allToolNames (currentMessages w.threads (get_session_id sidOpt ts hex) ++
      (buildHistory hist ++ [.human query]) ++ [.ai c []]) = [] := by
    rw [allToolNames_append, allToolNames_append, allToolNames_append,
      hclean, allToolNames_buildHistory]
    rfl
  have hused : collectTools (currentMessages w.threads (get_session_id sidOpt ts hex) ++
      (buildHistory hist ++ [.human query]) ++ [.ai c []]) = [] :=
    collectTools_eq_nil _ hnames
  refine ⟨?_, ?_, ?_⟩
  · simp only [ainvoke]
    rw [hloop]
  · simp only [process_chat, ainvoke]
    rw [hloop]
    simp only [chatToolsUsed?]
    simpa using hused
  · simp only [process_chat, ainvoke]
    rw [hloop]
    simp only [chatHasContext?]
    simpa using hused

/-- Witness for C3 on a fresh session and a tool-free model response. -/
theorem no_tool_response_single_transition_witness :
    (ainvoke constOracle exec0 (0 + 1) w0.threads (get_session_id (some "s1") "t" "h")
        ⟨buildHistory [] ++ [.human "hello"], "en", none, none⟩).trace =
      [.agent, .done] ∧
      chatToolsUsed? (process_chat constOracle exec0 (0 + 1) none "t" "h" w0 "hello"
        (some "s1") "en" none none []) = some [] ∧
      chatHasContext? (process_chat constOracle exec0 (0 + 1) none "t" "h" w0 "hello"
        (some "s1") "en" none none []) = some false :=
  no_tool_response_single_transition constOracle exec0 0 none "t" "h" w0 "hello"
    (some "s1") "en" none none [] "fine" rfl rfl

/-- C3 counterexample: after a first turn that used the weather tool, a
second turn of the same session whose model response (constOracle)
requests no tools still returns tools_used = ["get_weather_advisory"],
collected from the session's accumulated message state — so the claim
that such a turn returns an empty tools_used list fails. -/
theorem no_tool_turn_nonempty_tools_used_cex :
    process_chat toolThenAnswerOracle exec0 5 none "t" "h" w0 "q1" (some "s1") "en"
        none none [] = some (Wtool, .ok ⟨"sunny", "s1", ["get_weather_advisory"], true⟩) ∧
      process_chat constOracle exec0 5 none "t2" "h2" Wtool "q2" (some "s1") "en"
        none none [] = some (Wtool2, .ok ⟨"fine", "s1", ["get_weather_advisory"], true⟩) ∧
      (["get_weather_advisory"] : List String) ≠ [] :=
  ⟨rfl, rfl, by decide⟩

/-- C2 (amended): across successful chat turns a session's turn-record
count increases by one and its checkpoint count strictly increases; a
successful rollback of k ≥ 1 steps removes exactly k turn records when at
least k exist (and leaves the turn records unchanged otherwise), while the
checkpoint count increases by one — a fresh checkpoint of the older state
is appended — rather than decreasing by k. -/
theorem chat_rollback_count_evolution :
    (∀ (model : ModelOracle) (exec : ToolExec) (fuel : Nat) (updExc : Option String)
      (ts hex : String) (w : World) (query : String) (sidOpt : Option String)
      (language : String) (location crop : Option String)
      (hist : List (String × String)) (w2 : World) (res : ChatResult),
      process_chat model exec fuel updExc ts hex w query sidOpt language location crop hist
        = some (w2, .ok res) →
      turnCount w2 (get_session_id sidOpt ts hex) =
          turnCount w (get_session_id sidOpt ts hex) + 1 ∧
        ckCount w (get_session_id sidOpt ts hex) < ckCount w2 (get_session_id sidOpt ts hex)) ∧
      (∀ (w : World) (sid : String) (steps : Nat) (w2 : World) (res : RollbackResult),
        1 ≤ steps → rollback_conversation w sid steps = (w2, .ok res) →
        turnCount w2 sid =
            (if steps ≤ turnCount w sid then turnCount w sid - steps else turnCount w sid) ∧
          ckCount w2 sid = ckCount w sid + 1) := by
  constructor
  · intro model exec fuel updExc ts hex w query sidOpt language location crop hist w2 res h
    simp only [process_chat, ainvoke] at h
    cases hO : (agentLoop model exec fuel
        ⟨currentMessages w.threads (get_session_id sidOpt ts hex) ++
          (buildHistory hist ++ [.human query]), language, location, crop⟩).out with
    | diverge => rw [hO] at h; simp at h
    | err e => rw [hO] at h; simp at h
    | ok f =>
      rw [hO] at h
      simp only [Option.some.injEq, Prod.mk.injEq, Except.ok.injEq] at h
      obtain ⟨hw2, _⟩ := h
      subst hw2
      constructor
      · simp [turnCount, save_to_session, lookup_setA_self]
      · have hcks := agentLoop_ok_cks model exec fuel
          ⟨currentMessages w.threads (get_session_id sidOpt ts hex) ++
            (buildHistory hist ++ [.human query]), language, location, crop⟩ f hO
        have hpos : 0 < (agentLoop model exec fuel
            ⟨currentMessages w.threads (get_session_id sidOpt ts hex) ++
              (buildHistory hist ++ [.human query]), language, location, crop⟩).cks.length :=
          List.length_pos.mpr hcks
        simp [ckCount, lookup_setA_self]
        omega
  · intro w sid steps w2 res hsteps h
    simp only [rollback_conversation] at h
    split at h
    · simp at h
    · simp only [Prod.mk.injEq] at h
      obtain ⟨hw2, _⟩ := h
      subst hw2
      constructor
      · cases hl : w.sessions.lookup sid with
        | none =>
          simp [turnCount, hl]
        | some recs =>
          by_cases hr : steps ≤ recs.length
          · have hpt : pyTruncate recs steps = recs.take (recs.length - steps) := by
              unfold pyTruncate
              rw [if_neg (by omega)]
            simp [turnCount, hl, hr, hpt, lookup_setA_self, List.length_take]
          · simp [turnCount, hl, hr]
      · simp [ckCount, update_state, lookup_setA_self]

/-- Witness for C2: a successful tool-free chat turn raises the turn and
checkpoint counts; the successful one-step rollback on the two-turn
session drops one turn record and appends one checkpoint. -/
theorem chat_rollback_count_evolution_witness :
    (turnCount Wone "s1" = turnCount w0 "s1" + 1 ∧
        ckCount w0 "s1" < ckCount Wone "s1") ∧
      (turnCount WtwoRb "s1" =
          (if 1 ≤ turnCount Wtwo "s1" then turnCount Wtwo "s1" - 1 else turnCount Wtwo "s1") ∧
        ckCount WtwoRb "s1" = ckCount Wtwo "s1" + 1) :=
  ⟨chat_rollback_count_evolution.1 constOracle exec0 5 none "t" "h" w0 "hello" (some "s1")
      "en" none none [] Wone ⟨"fine", "s1", [], false⟩ rfl,
    chat_rollback_count_evolution.2 Wtwo "s1" 1 WtwoRb
      ⟨"success", "Rolled back 1 step(s)", "s1", 1⟩ (by decide) rfl⟩

/-- C2 counterexample: from the empty world, a chat turn whose second
model call raises leaves session s1 with three checkpoints and zero turn
records; a subsequent successful rollback of 2 steps leaves the
turn-record count at 0 and raises the checkpoint count from 3 to 4 — so
neither count decreases by the requested 2 steps. -/
theorem rollback_count_cex :
    process_chat toolThenErrOracle exec0 5 none "t" "h" w0 "q1" (some "s1") "en"
        none none [] = some (Werr, .error "boom") ∧
      ckCount Werr "s1" = 3 ∧ turnCount Werr "s1" = 0 ∧
      (rollback_conversation Werr "s1" 2).2.isOk = true ∧
      ckCount (rollback_conversation Werr "s1" 2).1 "s1" = 4 ∧
      turnCount (rollback_conversation Werr "s1" 2).1 "s1" = 0 :=
  ⟨rfl, rfl, rfl, rfl, rfl, rfl⟩

/-- C7 (amended): for every successful chat turn, the answer is the
content of the last assistant message with non-empty content in the final
message list (the apology fallback when none exists), and tools_used is
the list of distinct non-empty tool names invoked across the session's
entire final message list — including invocations persisted from earlier
turns of the same session — in first-invocation order with duplicates
removed. -/
theorem chat_answer_and_tools (model : ModelOracle) (exec : ToolExec) (fuel : Nat)
    (updExc : Option String) (ts hex : String) (w : World) (query : String)
    (sidOpt : Option String) (language : String) (location crop : Option String)
    (hist : List (String × String)) (final : AgentState)
    (h : (ainvoke model exec fuel w.threads (get_session_id sidOpt ts hex)
      ⟨buildHistory hist ++ [.human query], language, location, crop⟩).out = .ok final) :
    chatAnswer? (process_chat model exec fuel updExc ts hex w query sidOpt language
        location crop hist) = some (extractAnswer final.messages) ∧
      chatToolsUsed? (process_chat model exec fuel updExc ts hex w query sidOpt language
        location crop hist) =
        some (dedupFirst ((allToolNames final.messages).filter (fun n => n != ""))) ∧
      ((∀ m ∈ final.messages, aiContent? m = none) →
        chatAnswer? (process_chat model exec fuel updExc ts hex w query sidOpt language
          location crop hist) = some APOLOGY) ∧
      (∀ (pre post : List Message) (c : String) (tcs : List ToolCall),
        final.messages = pre ++ .ai c tcs :: post → (c != "") = true →
        (∀ m ∈ post, aiContent? m = none) →
        chatAnswer? (process_chat model exec fuel updExc ts hex w query sidOpt language
          location crop hist) = some c) ∧
      (∀ used : List String,
        chatToolsUsed? (process_chat model exec fuel updExc ts hex w query sidOpt language
          location crop hist) = some used →
        used.Nodup ∧
          ∀ n : String, n ∈ used ↔ ((n != "") = true ∧ n ∈ allToolNames final.messages)) := by
  simp only [ainvoke] at h
  have hP : process_chat model exec fuel updExc ts hex w query sidOpt language location
      crop hist =
      some (⟨save_to_session w.sessions (get_session_id sidOpt ts hex) query
          (extractAnswer final.messages) ts,
        setA w.threads (get_session_id sidOpt ts hex)
          ((agentLoop model exec fuel
            ⟨currentMessages w.threads (get_session_id sidOpt ts hex) ++
              (buildHistory hist ++ [.human query]), language, location, crop⟩).cks.reverse ++
            (w.threads.lookup (get_session_id sidOpt ts hex)).getD [])⟩,
        .ok ⟨extractAnswer final.messages, get_session_id sidOpt ts hex,
          collectTools final.messages, !(collectTools final.messages).isEmpty⟩) := by
    simp only [process_chat, ainvoke]
    rw [h]
  refine ⟨?_, ?_, ?_, ?_, ?_⟩
  · rw [hP]
    rfl
  · rw [hP]
    simp only [chatToolsUsed?, Option.some.injEq]
    exact collectTools_dedup final.messages
  · intro hnone
    rw [hP]
    simp only [chatAnswer?, Option.some.injEq]
    exact extractAnswer_apology final.messages hnone
  · intro pre post c tcs hdec hc hpost
    rw [hP]
    simp only [chatAnswer?, Option.some.injEq]
    rw [hdec]
    exact extractAnswer_last pre post c tcs hc hpost
  · intro used hu
    rw [hP] at hu
    simp only [chatToolsUsed?, Option.some.injEq] at hu
    subst hu
    constructor
    · rw [collectTools_dedup]
      exact nodup_dedupFirstAux _ _
    · intro n
      rw [collectTools_dedup]
      unfold dedupFirst
      rw [mem_dedupFirstAux]
      simp [List.mem_filter, and_comm]

/-- Witness for C7 on the second, tool-free turn of a session whose first
turn used the weather tool. -/
theorem chat_answer_and_tools_witness :
    chatAnswer? (process_chat constOracle exec0 5 none "t2" "h2" Wtool "q2" (some "s1")
        "en" none none []) = some "fine" ∧
      chatToolsUsed? (process_chat constOracle exec0 5 none "t2" "h2" Wtool "q2"
        (some "s1") "en" none none []) =
        some (dedupFirst ((allToolNames stD.messages).filter (fun n => n != ""))) ∧
      (dedupFirst ((allToolNames stD.messages).filter (fun n => n != ""))).Nodup := by
  have t := chat_answer_and_tools constOracle exec0 5 none "t2" "h2" Wtool "q2" (some "s1")
    "en" none none [] stD rfl
  exact ⟨t.1.trans (by rfl), t.2.1, (t.2.2.2.2 _ t.2.1).1⟩

/-- C7 counterexample: on the second turn of session s1 neither the
caller-supplied input nor the model response requests any tool, yet
tools_used is ["get_weather_advisory"], inherited from the first turn —
so tools_used is not the set of names requested during the turn. -/
theorem chat_tools_used_cross_turn_cex :
    chatToolsUsed? (process_chat constOracle exec0 5 none "t2" "h2" Wtool "q2" (some "s1")
        "en" none none []) = some ["get_weather_advisory"] ∧
      allToolNames (buildHistory [] ++ [.human "q2", .ai "fine" []]) = [] ∧
      (["get_weather_advisory"] : List String) ≠ [] :=
  ⟨rfl, rfl, by decide⟩

end KrishiVaani
